import Mathlib

/-!
Verification of the object-ID allocation MCP server's mediation layer:
error classification and retry (ErrorHandler, RetryHandler), backend
request mediation (BackendService), collision detection and consumption
caching (CollisionDetector), and assignment pattern analysis
(AssignmentManager).  JavaScript strings are embedded as lists of
characters, JavaScript numbers that hold object IDs, delays and
timestamps as naturals (or integers for HTTP status codes), optional /
possibly-absent fields as `Option`, and thrown exceptions as `Except`.
-/

namespace ALObjId

/-- JS strings modelled as lists of characters. -/
abbrev Str := List Char

/-- JS truthiness of an optional string field: `undefined` and `""` are falsy. -/
def jsTruthyStr : Option Str → Bool
  | some s => !s.isEmpty
  | none => false

/-- JS truthiness of an optional boolean field: `undefined` is falsy. -/
def jsTruthyBool : Option Bool → Bool
  | some b => b
  | none => false

/-- JS truthiness of an optional numeric field: `undefined` and `0` are falsy. -/
def jsTruthyNum : Option Nat → Bool
  | some n => n != 0
  | none => false

/-! ## ErrorHandler (src/lib/backend/ErrorHandler.ts)

The error values that reach `ErrorHandler.isRetryable`: instances of the
`NetworkError` / `BackendError` / `ValidationError` classes, or a raw
(unclassified) value that may carry ad-hoc `status` / `code` fields. -/

/-- The shapes of caught error values discriminated by `ErrorHandler`. -/
inductive JsError where
  | networkError (message : Str) (code : Option Str)
  | backendError (message : Str) (statusCode : Int)
  | validationError (message : Str) (field : Option Str)
  | raw (status : Option Int) (code : Option Str) (message : Option Str)
deriving DecidableEq

/-- The network error codes `isRetryable` accepts for `NetworkError`. -/
def retryableNetworkCodes : List Str :=
  ["ECONNREFUSED".toList, "ECONNRESET".toList, "ETIMEDOUT".toList]

/-- `ErrorHandler.isRetryable` (ErrorHandler.ts lines 1354-1371 of the
combined source).  Note the raw-error branch is guarded by the JS
truthiness test `if (error.status)`, so a `status` of `0` never reaches
the `error.status === 0` disjunct of the return expression. -/
def ErrorHandler.isRetryable : JsError → Bool
  | .networkError _ code => retryableNetworkCodes.contains (code.getD [])
  | .backendError _ statusCode => decide (statusCode ≥ 500) || statusCode == 429
  | .validationError _ _ => false
  | .raw status _ _ =>
    match status with
    | some s =>
      if s == 0 then false
      else decide (s ≥ 500) || s == 429 || s == 0
    | none => false

/-! ## RetryHandler (src/lib/backend/RetryHandler.ts) -/

/-- The four configuration fields of `RetryHandler`. -/
structure RetryHandler where
  maxRetries : Nat
  initialDelay : Nat
  maxDelay : Nat
  backoffMultiplier : Nat
deriving DecidableEq

/-- `new RetryHandler({})`: option defaults `3 / 1000ms / 30000ms / 2`. -/
def RetryHandler.defaults : RetryHandler := ⟨3, 1000, 30000, 2⟩

/-- The `RetryHandler` the `BackendService` constructor builds:
`{maxRetries: 3, initialDelay: 1000, maxDelay: 10000}` (multiplier
defaulted to 2). -/
def BackendService.retryHandler : RetryHandler := ⟨3, 1000, 10000, 2⟩

/-- Observable trace of one `execute` run: the propagated result, how
many times the operation was invoked, and the waits (ms) performed
before each retry, in order. -/
structure RetryTrace (E α : Type) where
  result : Except E α
  calls : Nat
  delays : List Nat

/-- The retry loop of `RetryHandler.execute`.  `op k` is the outcome of
the operation's `k`-th invocation (`attempt` index `k`); `remaining` is
`maxRetries - attempt`, so `remaining = 0` is the loop's final iteration
(`attempt === this.maxRetries`). -/
def RetryHandler.executeAux (h : RetryHandler) (op : Nat → Except E α)
    (retryable : E → Bool) (attempt remaining : Nat) : RetryTrace E α :=
  match op attempt with
  | .ok a => ⟨.ok a, 1, []⟩
  | .error e =>
    if retryable e then
      match remaining with
      | 0 => ⟨.error e, 1, []⟩
      | r + 1 =>
        let d := min (h.initialDelay * h.backoffMultiplier ^ attempt) h.maxDelay
        let t := h.executeAux op retryable (attempt + 1) r
        ⟨t.result, t.calls + 1, d :: t.delays⟩
    else ⟨.error e, 1, []⟩

/-- `RetryHandler.execute(operation, retryable)` (RetryHandler.ts lines
21-61): run from attempt 0 with `maxRetries` retries remaining. -/
def RetryHandler.execute (h : RetryHandler) (op : Nat → Except E α)
    (retryable : E → Bool) : RetryTrace E α :=
  h.executeAux op retryable 0 h.maxRetries

/-! ## BackendService (src/lib/backend/BackendService.ts)

Each public operation makes exactly one `sendRequest` call; the
combined transport/retry/classification pipeline behind `sendRequest`
is abstracted as an oracle giving that call's outcome (normal return or
thrown classified error). -/

/-- A closed numeric range `{from, to}` (ALRange.ts). -/
structure ALRange where
  «from» : Nat
  «to» : Nat
deriving DecidableEq

/-- HTTP methods `sendRequest` accepts. -/
inductive HttpMethod where
  | GET
  | POST
  | PATCH
  | DELETE
deriving DecidableEq

/-- `GetNextRequest` (BackendService.ts). -/
structure GetNextRequest where
  appId : Str
  type : Str
  ranges : List ALRange
  authKey : Str
  perRange : Option Bool
  require : Option Nat
  user : Option Str

/-- `BackendService.limitRanges` (BackendService.ts lines 922-929):
return a one-element list holding the first range containing `require`,
or the empty list when no range contains it. -/
def BackendService.limitRanges (ranges : List ALRange) (require : Nat) : List ALRange :=
  match ranges with
  | [] => []
  | r :: rest =>
    if require ≥ r.«from» && require ≤ r.«to» then [r]
    else BackendService.limitRanges rest require

/-- The `ranges` value `BackendService.getNext` (lines 893-916) sends to
the backend: narrowed by `limitRanges` only when `commit` is true and
both `perRange` and `require` are (JS-)truthy. -/
def BackendService.getNextRanges (commit : Bool) (request : GetNextRequest) : List ALRange :=
  if commit && jsTruthyBool request.perRange && jsTruthyNum request.require then
    BackendService.limitRanges request.ranges (request.require.getD 0)
  else request.ranges

/-- `BackendService.getNext`: send the request with the possibly
narrowed ranges; a thrown mediator error is caught and converted to
`undefined`. `send` is the outcome of the single `sendRequest` call as
a function of the ranges actually sent. -/
def BackendService.getNext (send : List ALRange → Except JsError α)
    (request : GetNextRequest) (commit : Bool) : Option α :=
  match send (BackendService.getNextRanges commit request) with
  | .ok v => some v
  | .error _ => none

/-- `SyncIdsRequest` (BackendService.ts); `ids` maps an object-type
label to the consumed IDs reported for it. -/
structure SyncIdsRequest where
  appId : Str
  authKey : Str
  ids : Str → List Nat
  merge : Option Bool

/-- The fixed path of the sync endpoint. -/
def syncIdsPath : Str := "/api/v2/syncIds".toList

/-- The HTTP method `syncIds` selects: `request.merge ? 'PATCH' : 'POST'`. -/
def BackendService.syncIdsMethod (merge : Option Bool) : HttpMethod :=
  if jsTruthyBool merge then .PATCH else .POST

/-- `BackendService.syncIds` (lines 1003-1018): one `sendRequest` to
`/api/v2/syncIds` with the merge-selected method; returns `true` on
success and `false` (never a thrown error) on failure.  `send` gives
the outcome of the single `sendRequest` call for a path and method. -/
def BackendService.syncIds (send : Str → HttpMethod → Except JsError Unit)
    (request : SyncIdsRequest) : Bool :=
  match send syncIdsPath (BackendService.syncIdsMethod request.merge) with
  | .ok _ => true
  | .error _ => false

/-- `AuthorizationInfo` as `authorizeApp` returns it. -/
structure AuthorizationInfo where
  authKey : Str
  authorized : Bool
  error : Option Str
deriving DecidableEq

/-- `BackendService.authorizeApp` (lines 934-953).  `send` is the
outcome of the POST to `/api/v2/authorizeApp`; its payload is the
optional `authKey` field of the response body.  A missing or empty
credential yields a normal `authorized: false` value; a thrown
mediator error is logged and rethrown (not converted). -/
def BackendService.authorizeApp (send : Except JsError (Option Str)) :
    Except JsError AuthorizationInfo :=
  match send with
  | .ok respAuthKey =>
    .ok { authKey := respAuthKey.getD []
          authorized := jsTruthyStr respAuthKey
          error := if jsTruthyStr respAuthKey then none
                   else some "Authorization failed".toList }
  | .error e => .error e

/-! ## Workspace model (src/lib/workspace/WorkspaceManager.ts) -/

/-- `WorkspaceApp`. -/
structure WorkspaceApp where
  path : Str
  appId : Str
  name : Str
  version : Str
  publisher : Str
  hasObjIdConfig : Bool
  isAuthorized : Bool
  authKey : Option Str
  ranges : Option (List ALRange)
deriving DecidableEq

/-- `WorkspaceInfo` (only the fields the collision detector reads). -/
structure WorkspaceInfo where
  rootPath : Str
  apps : List WorkspaceApp

/-! ## CollisionDetector (src/lib/collision/CollisionDetector.ts) -/

/-- One element of a `CollisionInfo.apps` array. -/
structure CollisionApp where
  appId : Str
  appName : Str
  appPath : Str

/-- `severity: 'warning' | 'error'`. -/
inductive Severity where
  | warning
  | error
deriving DecidableEq

/-- `CollisionInfo`. -/
structure CollisionInfo where
  objectType : Str
  id : Nat
  apps : List CollisionApp
  severity : Severity
  message : Str

/-- A `ConsumptionCache` entry. -/
structure ConsumptionCache where
  appId : Str
  objectType : Str
  ids : List Nat
  lastUpdated : Nat

/-- The detector's `consumptionCache: Map<string, ConsumptionCache>`,
modelled as an insertion-ordered association list. -/
abbrev CacheMap := List (Str × ConsumptionCache)

/-- `Map.get`: value of the entry for the key. -/
def mapGet : List (Str × α) → Str → Option α
  | [], _ => none
  | kv :: rest, k => if kv.1 == k then some kv.2 else mapGet rest k

/-- `Map.set`: replace the entry for the key in place, else append. -/
def mapSet (m : List (Str × α)) (k : Str) (v : α) : List (Str × α) :=
  match m with
  | [] => [(k, v)]
  | kv :: rest => if kv.1 == k then (k, v) :: rest else kv :: mapSet rest k v

/-- `cacheTimeout = 5 * 60 * 1000` (CollisionDetector.ts line 31). -/
def cacheTimeout : Nat := 5 * 60 * 1000

/-- The template-literal cache key `` `${app.appId}-${objectType}` ``. -/
def cacheKey (appId objectType : Str) : Str := appId ++ '-' :: objectType

/-- The backend oracle: for an app's identifier, the outcome of
`backendService.getConsumption` — `some` maps an object-type label to
its consumed IDs (`consumptionInfo[objectType] || []`), `none` covers
both an `undefined` response and a thrown (caught and logged) error. -/
abbrev Backend := Str → Option (Str → List Nat)

/-- Result of one `getAppConsumption` call: the returned value, the
cache afterwards, and whether a backend fetch was issued. -/
structure ConsumptionLookup where
  result : Option (List Nat)
  cache : CacheMap
  fetched : Bool

/-- Whether the cached entry for `key` exists and is still valid:
`cached && now - cached.lastUpdated < cacheTimeout`. -/
def cacheFresh (now : Nat) (cache : CacheMap) (key : Str) : Bool :=
  match mapGet cache key with
  | some cached => decide (now - cached.lastUpdated < cacheTimeout)
  | none => false

/-- The `ids` of the cached entry for `key` (only read when fresh). -/
def cachedIds (cache : CacheMap) (key : Str) : List Nat :=
  match mapGet cache key with
  | some cached => cached.ids
  | none => []

/-- The fetch part of `getAppConsumption`: on a successful backend
response extract the object type's consumption and cache it stamped
`now`; on failure return `null` leaving the cache unchanged. -/
def fetchConsumption (backend : Backend) (now : Nat) (cache : CacheMap)
    (app : WorkspaceApp) (objectType : Str) : ConsumptionLookup :=
  match backend app.appId with
  | some info =>
    let consumption := info objectType
    ⟨some consumption,
     mapSet cache (cacheKey app.appId objectType)
       ⟨app.appId, objectType, consumption, now⟩,
     true⟩
  | none => ⟨none, cache, true⟩

/-- `CollisionDetector.getAppConsumption` (lines 151-194): `null` for an
unauthorized app, the cached ids when the entry is younger than five
minutes, otherwise a backend fetch. -/
def getAppConsumption (backend : Backend) (now : Nat) (cache : CacheMap)
    (app : WorkspaceApp) (objectType : Str) : ConsumptionLookup :=
  if !(app.isAuthorized && jsTruthyStr app.authKey) then ⟨none, cache, false⟩
  else if cacheFresh now cache (cacheKey app.appId objectType) then
    ⟨some (cachedIds cache (cacheKey app.appId objectType)), cache, false⟩
  else fetchConsumption backend now cache app objectType

/-- `CollisionDetector.isIdInRanges` (lines 199-211). -/
def isIdInRanges (id : Nat) (ranges : Option (List ALRange)) : Bool :=
  match ranges with
  | none => false
  | some rs => rs.any (fun r => id ≥ r.«from» && id ≤ r.«to»)

/-- The `{appId, appName, appPath}` record pushed for a colliding app. -/
def collisionApp (app : WorkspaceApp) : CollisionApp :=
  ⟨app.appId, app.name, app.path⟩

/-- Decimal rendering of a number interpolated into a template literal. -/
def natStr (n : Nat) : Str := Nat.toDigits 10 n

/-- The message `` `Object ID ${id} is already used by ${n} other app(s)` ``. -/
def collisionMessage (id : Nat) (n : Nat) : Str :=
  "Object ID ".toList ++ natStr id ++ " is already used by ".toList ++
    natStr n ++ " other app(s)".toList

/-- The `for (const app of workspace.apps)` loop of `checkCollision`:
skip the claimant by `appId`, and for each other app whose ranges
contain the candidate, look up its consumption (threading the cache)
and record it when the candidate appears there. -/
def checkCollisionLoop (backend : Backend) (now : Nat) (objectType : Str)
    (id : Nat) (currentApp : WorkspaceApp) :
    List WorkspaceApp → CacheMap → List CollisionApp × CacheMap
  | [], cache => ([], cache)
  | app :: rest, cache =>
    if app.appId == currentApp.appId then
      checkCollisionLoop backend now objectType id currentApp rest cache
    else if isIdInRanges id app.ranges then
      let lookup := getAppConsumption backend now cache app objectType
      let found := match lookup.result with
        | some ids => ids.contains id
        | none => false
      let tail := checkCollisionLoop backend now objectType id currentApp rest lookup.cache
      (if found then collisionApp app :: tail.1 else tail.1, tail.2)
    else
      checkCollisionLoop backend now objectType id currentApp rest cache

/-- `CollisionDetector.checkCollision` (lines 49-99): `null` without a
workspace; otherwise an `'error'`-severity finding listing the
colliding apps when there is at least one, else `null`. -/
def checkCollision (backend : Backend) (now : Nat) (objectType : Str)
    (id : Nat) (currentApp : WorkspaceApp) (workspace : Option WorkspaceInfo)
    (cache : CacheMap) : Option CollisionInfo × CacheMap :=
  match workspace with
  | none => (none, cache)
  | some ws =>
    let r := checkCollisionLoop backend now objectType id currentApp ws.apps cache
    if r.1.length > 0 then
      (some ⟨objectType, id, r.1, .error, collisionMessage id r.1.length⟩, r.2)
    else (none, r.2)

/-- The value `getAppConsumption` would return against a given cache
(its `result` projection): the consumption the loop tests an app by. -/
def consumptionResult (backend : Backend) (now : Nat) (cache : CacheMap)
    (app : WorkspaceApp) (objectType : Str) : Option (List Nat) :=
  (getAppConsumption backend now cache app objectType).result

/-- Pure collision test for one app: not the claimant, candidate inside
its ranges, and candidate present in its looked-up consumption. -/
def collides (backend : Backend) (now : Nat) (cache : CacheMap)
    (objectType : Str) (id : Nat) (currentApp : WorkspaceApp)
    (app : WorkspaceApp) : Bool :=
  !(app.appId == currentApp.appId) && isIdInRanges id app.ranges &&
    (match consumptionResult backend now cache app objectType with
     | some ids => ids.contains id
     | none => false)

/-- `CollisionDetector.findOverlappingRanges` (lines 216-241). -/
def findOverlappingRanges (ranges1 ranges2 : Option (List ALRange)) : List ALRange :=
  match ranges1, ranges2 with
  | some r1s, some r2s =>
    r1s.flatMap fun r1 =>
      r2s.filterMap fun r2 =>
        let overlapStart := max r1.«from» r2.«from»
        let overlapEnd := min r1.«to» r2.«to»
        if overlapStart ≤ overlapEnd then some ⟨overlapStart, overlapEnd⟩
        else none
  | _, _ => []

/-- The message `` `Range ${from}..${to} is shared between ${n1} and ${n2}` ``. -/
def rangeOverlapMessage (r : ALRange) (name1 name2 : Str) : Str :=
  "Range ".toList ++ natStr r.«from» ++ "..".toList ++ natStr r.«to» ++
    " is shared between ".toList ++ name1 ++ " and ".toList ++ name2

/-- The `'warning'` findings pushed for one ordered app pair of
`checkRangeOverlaps`: one per overlapping range combination, id set to
the overlap's `from`, object type fixed to `table`. -/
def overlapInfos (app1 app2 : WorkspaceApp) : List CollisionInfo :=
  (findOverlappingRanges app1.ranges app2.ranges).map fun range =>
    ⟨"table".toList, range.«from», [collisionApp app1, collisionApp app2],
     .warning, rangeOverlapMessage range app1.name app2.name⟩

/-- The `i < j` double loop of `checkRangeOverlaps` (lines 104-146). -/
def checkRangeOverlapsLoop : List WorkspaceApp → List CollisionInfo
  | [] => []
  | app1 :: rest => rest.flatMap (overlapInfos app1) ++ checkRangeOverlapsLoop rest

/-- `CollisionDetector.checkRangeOverlaps`. -/
def checkRangeOverlaps (workspace : Option WorkspaceInfo) : List CollisionInfo :=
  match workspace with
  | none => []
  | some ws => checkRangeOverlapsLoop ws.apps

/-- JS `s.startsWith(p)`. -/
def strStartsWith : Str → Str → Bool
  | _, [] => true
  | [], _ :: _ => false
  | c :: s, q :: p => c == q && strStartsWith s p

/-- `CollisionDetector.clearCache` (lines 279-281). -/
def clearCache (_cache : CacheMap) : CacheMap := []

/-- `CollisionDetector.invalidateAppCache` (lines 286-292): delete every
entry whose key starts with the app identifier. -/
def invalidateAppCache (appId : Str) (cache : CacheMap) : CacheMap :=
  cache.filter fun kv => !(strStartsWith kv.1 appId)

/-! ## AssignmentManager pattern analysis (AssignmentManager.ts) -/

/-- One `{pattern, example}` suggestion. -/
structure IdPattern where
  pattern : Str
  «example» : Nat
deriving DecidableEq

/-- `Math.max(...consumption)` for the (nonempty) consumption list. -/
def consumptionMax (consumption : List Nat) : Nat := consumption.foldl max 0

/-- The `roundPatterns` table `[{1000, Thousands}, {100, Hundreds}, {10, Tens}]`. -/
def roundPatternTable : List (Nat × Str) :=
  [(1000, "Thousands".toList), (100, "Hundreds".toList), (10, "Tens".toList)]

/-- `Math.ceil((max + 1) / multiple) * multiple`: the next round value. -/
def nextRound (maxConsumed multiple : Nat) : Nat :=
  ((maxConsumed + multiple) / multiple) * multiple

/-- The round-number portion of `AssignmentManager.analyzePatterns`
(lines 497-514): walk the multiples in descending order and emit one
pattern for the first whose share of the consumed IDs passes the
threshold, then `break`.  The JS guard is
`roundIds.length > consumption.length * 0.3` with float arithmetic; for
every feasible list length (below 2^32) the float comparison agrees
exactly with the integer comparison `10 * roundCount > 3 * length` used
here, because `0.3 * length` rounds to an integer only when `length` is
a multiple of 10, and then to exactly `3 * length / 10`. -/
def roundPatternLoop (consumption : List Nat) : List (Nat × Str) → List IdPattern
  | [] => []
  | (multiple, name) :: rest =>
    let roundIds := consumption.filter (fun id => id % multiple == 0)
    if roundIds.length * 10 > consumption.length * 3 then
      [⟨name, nextRound (consumptionMax consumption) multiple⟩]
    else roundPatternLoop consumption rest

/-- The round-number patterns `analyzePatterns` emits for a consumption
list (empty input exits early before the round-number loop). -/
def AssignmentManager.roundPatterns (consumption : List Nat) : List IdPattern :=
  if consumption.length == 0 then []
  else roundPatternLoop consumption roundPatternTable

/-- Per-attempt backoff delay `min(initialDelay * multiplier^attempt, maxDelay)`. -/
def RetryHandler.delayAt (h : RetryHandler) (attempt : Nat) : Nat :=
  min (h.initialDelay * h.backoffMultiplier ^ attempt) h.maxDelay

/-! ## Association-list map lemmas -/

theorem mapGet_mapSet (m : List (Str × α)) (k k' : Str) (v : α) :
    mapGet (mapSet m k v) k' = if k' = k then some v else mapGet m k' := by
  induction m with
  | nil =>
    by_cases h : k' = k
    · subst h; simp [mapSet, mapGet]
    · simp [mapSet, mapGet, beq_iff_eq, h, Ne.symm h]
  | cons kv rest ih =>
    by_cases h1 : kv.1 = k
    · by_cases h2 : k' = k
      · subst h2; simp [mapSet, mapGet, h1, beq_iff_eq]
      · simp [mapSet, mapGet, h1, beq_iff_eq, h2, Ne.symm h2]
    · by_cases h2 : k' = k
      · subst h2; simp [mapSet, mapGet, beq_iff_eq, h1, ih]
      · simp [mapSet, mapGet, beq_iff_eq, h1, h2, ih]

/-! ## C1: retryability of raw errors with status 0 -/

/-- C1 (code-bug evidence): on a raw (unclassified) error whose `status`
field is `0`, `ErrorHandler.isRetryable` returns `false`: the JS
truthiness guard `if (error.status)` skips the return expression whose
own `error.status === 0` disjunct (and the repository test suite, which
expects `isRetryable({status: 0})` to be `true`) show the intent was to
retry.  Statuses 500 and 429 behave as the claim states. -/
theorem isRetryable_raw_status_zero :
    ErrorHandler.isRetryable (JsError.raw (some 0) none none) = false ∧
    ErrorHandler.isRetryable (JsError.raw (some 500) none none) = true ∧
    ErrorHandler.isRetryable (JsError.raw (some 429) none none) = true := by
  decide

/-! ## C2: retry loop trace -/

theorem RetryHandler.executeAux_allFail (h : RetryHandler)
    (op : Nat → Except E α) (retryable : E → Bool) (errs : Nat → E)
    (hop : ∀ k, op k = .error (errs k)) (hr : ∀ k, retryable (errs k) = true)
    (remaining : Nat) : ∀ attempt,
    h.executeAux op retryable attempt remaining =
      ⟨.error (errs (attempt + remaining)), remaining + 1,
       (List.range remaining).map (fun k => h.delayAt (attempt + k))⟩ := by
  induction remaining with
  | zero =>
    intro attempt
    simp [RetryHandler.executeAux, hop, hr]
  | succ r ih =>
    intro attempt
    simp only [RetryHandler.executeAux, hop, hr, if_true, ih (attempt + 1)]
    have h1 : attempt + 1 + r = attempt + (r + 1) := by omega
    have hf : (fun k => h.delayAt (attempt + 1 + k)) =
        (fun k => h.delayAt (attempt + (k + 1))) := by
      funext k
      rw [show attempt + 1 + k = attempt + (k + 1) by omega]
    simp only [List.range_succ_eq_map, List.map_map, Function.comp_def, h1, hf,
      RetryHandler.delayAt]
    simp
    intro a _
    rw [show attempt + 1 + a = attempt + (a + 1) by omega]

/-- C2: with `maxRetries = N` configured and an operation that fails on
every attempt with an error the retryability predicate accepts,
`RetryHandler.execute` invokes the operation exactly `N + 1` times,
propagates the last error, and waits exactly
`min(initialDelay * multiplier^attempt, maxDelay)` before each retry
(attempt indexed from 0, no jitter); an error the predicate rejects
propagates immediately after a single invocation with no waits. -/
theorem RetryHandler.execute_allFail_spec (h : RetryHandler)
    (op : Nat → Except E α) (retryable : E → Bool) (errs : Nat → E)
    (hop : ∀ k, op k = .error (errs k)) (hr : ∀ k, retryable (errs k) = true) :
    h.execute op retryable =
      ⟨.error (errs h.maxRetries), h.maxRetries + 1,
       (List.range h.maxRetries).map h.delayAt⟩ ∧
    (∀ (op2 : Nat → Except E α) (e : E), op2 0 = .error e →
      retryable e = false → h.execute op2 retryable = ⟨.error e, 1, []⟩) := by
  constructor
  · have h0 := h.executeAux_allFail op retryable errs hop hr h.maxRetries 0
    simpa [RetryHandler.execute] using h0
  · intro op2 e h0 hre
    simp [RetryHandler.execute, RetryHandler.executeAux, h0, hre]

/-- C2 witness: the concrete mediator configuration (3 retries, 1000ms
initial delay, 10000ms cap, multiplier 2) against an operation that
always throws an HTTP 502 error gives 4 invocations and the delay
sequence 1000, 2000, 4000. -/
theorem RetryHandler.execute_allFail_witness :
    ErrorHandler.isRetryable (JsError.raw (some 502) none none) = true ∧
    BackendService.retryHandler.execute
        (fun _ : Nat => (.error (JsError.raw (some 502) none none) :
          Except JsError Unit))
        ErrorHandler.isRetryable =
      ⟨.error (JsError.raw (some 502) none none),
       BackendService.retryHandler.maxRetries + 1,
       (List.range BackendService.retryHandler.maxRetries).map
         BackendService.retryHandler.delayAt⟩ :=
  ⟨by decide,
   (RetryHandler.execute_allFail_spec BackendService.retryHandler _
     ErrorHandler.isRetryable (fun _ => JsError.raw (some 502) none none)
     (fun _ => rfl) (fun _ => rfl)).1⟩

/-! ## C3: range narrowing in getNext -/

theorem limitRanges_eq_find (rs : List ALRange) (n : Nat) :
    BackendService.limitRanges rs n =
      (rs.find? fun r => n ≥ r.«from» && n ≤ r.«to»).elim [] (fun r => [r]) := by
  induction rs with
  | nil => rfl
  | cons r rest ih =>
    by_cases hc : (n ≥ r.«from» && n ≤ r.«to») = true
    · simp [BackendService.limitRanges, List.find?_cons_of_pos, hc]
    · rw [BackendService.limitRanges, List.find?_cons_of_neg _
        (by simpa using hc)]
      simp only [Bool.not_eq_true] at hc
      simp [hc, ih]

/-- C3 counterexample: with the commit flag false, a request whose
`perRange` and `require` fields are both set keeps its full declared
range list — the ranges are NOT narrowed to the single range containing
the required value, contradicting the claim's "whenever both fields are
set". -/
theorem getNextRanges_noCommit_not_narrowed :
    BackendService.getNextRanges false
        ⟨[], [], [⟨50000, 59999⟩, ⟨60000, 69999⟩], [], some true,
         some 65000, none⟩ =
      [⟨50000, 59999⟩, ⟨60000, 69999⟩] ∧
    ([⟨50000, 59999⟩, ⟨60000, 69999⟩] : List ALRange) ≠ [⟨60000, 69999⟩] := by
  exact ⟨rfl, by decide⟩

/-- C3 (amended): when `getNext` is called with the commit flag set and
both `perRange` and `require` set (and nonzero), the ranges sent to the
backend are exactly the first declared range containing the required
value, or the empty list when no declared range contains it; the
claim's two concrete examples hold in commit mode. -/
theorem getNextRanges_commit_spec (request : GetNextRequest) (n : Nat)
    (hper : request.perRange = some true) (hreq : request.require = some n)
    (hn : n ≠ 0) :
    BackendService.getNextRanges true request =
      (request.ranges.find? fun r => n ≥ r.«from» && n ≤ r.«to»).elim []
        (fun r => [r]) ∧
    BackendService.getNextRanges true
        ⟨[], [], [⟨50000, 59999⟩, ⟨60000, 69999⟩], [], some true,
         some 65000, none⟩ =
      [⟨60000, 69999⟩] ∧
    BackendService.getNextRanges true
        ⟨[], [], [⟨50000, 59999⟩, ⟨60000, 69999⟩], [], some true,
         some 99999, none⟩ =
      ([] : List ALRange) := by
  refine ⟨?_, by decide, by decide⟩
  simp [BackendService.getNextRanges, hper, hreq, jsTruthyBool, jsTruthyNum,
    hn, limitRanges_eq_find]

/-- C3 witness: the amended narrowing at the concrete request with
ranges [[50000,59999],[60000,69999]] and required value 65000. -/
theorem getNextRanges_commit_witness :
    (some 65000 : Option Nat) = some 65000 ∧ (65000 : Nat) ≠ 0 ∧
    BackendService.getNextRanges true
        ⟨[], [], [⟨50000, 59999⟩, ⟨60000, 69999⟩], [], some true,
         some 65000, none⟩ =
      (([⟨50000, 59999⟩, ⟨60000, 69999⟩] : List ALRange).find? fun r =>
        65000 ≥ r.«from» && 65000 ≤ r.«to»).elim [] (fun r => [r]) :=
  ⟨rfl, by decide,
   (getNextRanges_commit_spec
     ⟨[], [], [⟨50000, 59999⟩, ⟨60000, 69999⟩], [], some true,
      some 65000, none⟩ 65000 rfl rfl (by decide)).1⟩

/-! ## C7: sync method selection and failure conversion -/

/-- C7: `syncIds` issues its single request to the fixed path
`/api/v2/syncIds` with method PATCH exactly when the merge flag is
`true` and POST when it is `false` or absent, and returns `true`
exactly when the underlying request succeeds and `false` (instead of a
thrown error) exactly when it fails. -/
theorem syncIds_spec (send : Str → HttpMethod → Except JsError Unit)
    (request : SyncIdsRequest) :
    (BackendService.syncIdsMethod request.merge = .PATCH ↔
      request.merge = some true) ∧
    (BackendService.syncIdsMethod request.merge = .POST ↔
      request.merge ≠ some true) ∧
    (BackendService.syncIds send request = true ↔
      send syncIdsPath (BackendService.syncIdsMethod request.merge) =
        .ok ()) ∧
    (BackendService.syncIds send request = false ↔
      ∃ e, send syncIdsPath (BackendService.syncIdsMethod request.merge) =
        .error e) := by
  refine ⟨?_, ?_, ?_, ?_⟩
  · rcases request.merge with _ | b
    · simp [BackendService.syncIdsMethod, jsTruthyBool]
    · cases b <;> simp [BackendService.syncIdsMethod, jsTruthyBool]
  · rcases request.merge with _ | b
    · simp [BackendService.syncIdsMethod, jsTruthyBool]
    · cases b <;> simp [BackendService.syncIdsMethod, jsTruthyBool]
  · rw [BackendService.syncIds]
    cases hs : send syncIdsPath (BackendService.syncIdsMethod request.merge) with
    | ok u => cases u; simp
    | error e => simp
  · rw [BackendService.syncIds]
    cases hs : send syncIdsPath (BackendService.syncIdsMethod request.merge) with
    | ok u => cases u; simp
    | error e => simp

/-! ## C8: authorization failure distinction -/

/-- C8: a well-formed authorize response without a credential field
yields a normal `authorized := false` value with an empty credential
(not a thrown error), while a thrown mediator error propagates out of
`authorizeApp`; in contrast `getNext` and `syncIds` convert every
mediator failure into the benign returns `undefined` and `false`. -/
theorem authorizeApp_spec :
    BackendService.authorizeApp (.ok none) =
      .ok ⟨[], false, some "Authorization failed".toList⟩ ∧
    (∀ e : JsError, BackendService.authorizeApp (.error e) = .error e) ∧
    (∀ (α : Type) (e : JsError) (request : GetNextRequest) (commit : Bool),
      BackendService.getNext (fun _ => (.error e : Except JsError α))
        request commit = none) ∧
    (∀ (e : JsError) (request : SyncIdsRequest),
      BackendService.syncIds (fun _ _ => .error e) request = false) :=
  ⟨rfl, fun _ => rfl, fun _ _ _ _ => rfl, fun _ _ => rfl⟩

/-! ## C9: round-number pattern threshold -/

/-- C9 (code-bug evidence): in the consumption list
[1000,2000,3000,1,2,3,4,5,6,7] exactly 30% of the IDs are multiples of
1000, so under the claim ("at least 30%", matching the code's own
comment "At least 30% match") a Thousands round-number pattern must be
emitted; the strict comparison actually in the code emits no
round-number pattern at all for this list. -/
theorem roundPatterns_thirty_percent_boundary :
    AssignmentManager.roundPatterns [1000, 2000, 3000, 1, 2, 3, 4, 5, 6, 7] =
      [] ∧
    (([1000, 2000, 3000, 1, 2, 3, 4, 5, 6, 7] : List Nat).filter
        (fun id => id % 1000 == 0)).length * 10 =
      ([1000, 2000, 3000, 1, 2, 3, 4, 5, 6, 7] : List Nat).length * 3 := by
  decide

/-! ## C10: per-project cache invalidation -/

theorem strStartsWith_append (s p t : Str) (h : strStartsWith s p = true) :
    strStartsWith (s ++ t) p = true := by
  induction p generalizing s with
  | nil => cases s <;> simp [strStartsWith]
  | cons q p2 ih =>
    cases s with
    | nil => simp [strStartsWith] at h
    | cons c s2 =>
      simp only [List.cons_append, strStartsWith, Bool.and_eq_true] at h ⊢
      exact ⟨h.1, ih s2 h.2⟩

theorem mapGet_invalidateAppCache (appId : Str) (cache : CacheMap) (k : Str) :
    mapGet (invalidateAppCache appId cache) k =
      if strStartsWith k appId then none else mapGet cache k := by
  induction cache with
  | nil =>
    by_cases h : strStartsWith k appId = true <;>
      simp [invalidateAppCache, mapGet, h]
  | cons kv rest ih =>
    by_cases hkv : strStartsWith kv.1 appId = true
    · by_cases hk : strStartsWith k appId = true
      · simp [invalidateAppCache, List.filter_cons, hkv, hk] at ih ⊢
        simpa [hk] using ih
      · have hne : kv.1 ≠ k := fun he => hk (he ▸ hkv)
        simp only [invalidateAppCache, List.filter_cons, hkv] at ih ⊢
        simp [ih, hk, mapGet, beq_iff_eq, hne]
    · have hkf : strStartsWith kv.1 appId = false := by
        simpa using hkv
      by_cases hc : kv.1 = k
      · subst hc
        simp [invalidateAppCache, List.filter_cons, hkf, mapGet]
      · simp only [invalidateAppCache, List.filter_cons, hkf,
          Bool.not_false, if_true] at ih ⊢
        simp [mapGet, beq_iff_eq, hc, ih]

/-- C10: `invalidateAppCache` removes exactly the cache entries whose
key starts with the given project identifier, leaving every other
entry unchanged; since an entry's key is the concatenation of project
identifier, hyphen and object kind, an identifier that another
project's identifier starts with also removes that other project's
entries; `clearCache` removes every entry. -/
theorem invalidateAppCache_spec (appId : Str) (cache : CacheMap) :
    (∀ k, mapGet (invalidateAppCache appId cache) k =
      if strStartsWith k appId then none else mapGet cache k) ∧
    (∀ appId2 objectType, strStartsWith appId2 appId = true →
      mapGet (invalidateAppCache appId cache)
        (cacheKey appId2 objectType) = none) ∧
    (∀ k, mapGet (clearCache cache) k = none) := by
  refine ⟨fun k => mapGet_invalidateAppCache appId cache k,
    fun appId2 objectType h2 => ?_, fun _ => rfl⟩
  rw [mapGet_invalidateAppCache]
  have hsw : strStartsWith (cacheKey appId2 objectType) appId = true :=
    strStartsWith_append appId2 appId ('-' :: objectType) h2
  simp [hsw]

/-- C10 witness: invalidating for project identifier "app1" also drops
the entry keyed by project "app10" and kind "table", while an
unrelated entry survives per the general characterization. -/
theorem invalidateAppCache_witness :
    strStartsWith "app10".toList "app1".toList = true ∧
    mapGet
      (invalidateAppCache "app1".toList
        [(cacheKey "app10".toList "table".toList,
          ⟨"app10".toList, "table".toList, [50000], 0⟩),
         (cacheKey "b".toList "table".toList,
          ⟨"b".toList, "table".toList, [60000], 0⟩)])
      (cacheKey "app10".toList "table".toList) = none :=
  ⟨by decide,
   (invalidateAppCache_spec "app1".toList _).2.1 "app10".toList
     "table".toList (by decide)⟩

/-! ## Consumption lookup lemmas (C4, C6) -/

theorem fetchConsumption_result (backend : Backend) (now : Nat)
    (cache : CacheMap) (app : WorkspaceApp) (ot : Str) :
    (fetchConsumption backend now cache app ot).result =
      (backend app.appId).map (fun info => info ot) := by
  cases hb : backend app.appId <;> simp [fetchConsumption, hb]

theorem cacheKey_inj_left {a b ot : Str} (h : cacheKey a ot = cacheKey b ot) :
    a = b :=
  List.append_cancel_right h

/-- Running `getAppConsumption` for one app never changes the value a
later `getAppConsumption` for the same object type returns for any app:
the only cache write stores exactly what the backend would deliver
fresh for that key. -/
theorem consumptionResult_stable (backend : Backend) (now : Nat)
    (cache : CacheMap) (app1 app2 : WorkspaceApp) (ot : Str) :
    consumptionResult backend now
        (getAppConsumption backend now cache app1 ot).cache app2 ot =
      consumptionResult backend now cache app2 ot := by
  cases ha1 : (app1.isAuthorized && jsTruthyStr app1.authKey) with
  | false => simp [getAppConsumption, ha1]
  | true =>
  cases hf1 : cacheFresh now cache (cacheKey app1.appId ot) with
  | true => simp [getAppConsumption, ha1, hf1]
  | false =>
  cases hb : backend app1.appId with
  | none => simp [getAppConsumption, ha1, hf1, fetchConsumption, hb]
  | some info =>
  have hcache : (getAppConsumption backend now cache app1 ot).cache =
      mapSet cache (cacheKey app1.appId ot) ⟨app1.appId, ot, info ot, now⟩ := by
    simp [getAppConsumption, ha1, hf1, fetchConsumption, hb]
  rw [hcache]
  cases ha2 : (app2.isAuthorized && jsTruthyStr app2.authKey) with
  | false => simp [consumptionResult, getAppConsumption, ha2]
  | true =>
  by_cases hk : cacheKey app2.appId ot = cacheKey app1.appId ot
  · have happ : app2.appId = app1.appId := cacheKey_inj_left hk
    have hg : mapGet
        (mapSet cache (cacheKey app1.appId ot) ⟨app1.appId, ot, info ot, now⟩)
        (cacheKey app2.appId ot) = some ⟨app1.appId, ot, info ot, now⟩ := by
      rw [mapGet_mapSet]
      simp [hk]
    have hfresh2 : cacheFresh now
        (mapSet cache (cacheKey app1.appId ot) ⟨app1.appId, ot, info ot, now⟩)
        (cacheKey app2.appId ot) = true := by
      simp [cacheFresh, hg, cacheTimeout]
    have hstale2 : cacheFresh now cache (cacheKey app2.appId ot) = false := by
      rw [hk]
      exact hf1
    have hres2 : consumptionResult backend now cache app2 ot =
        some (info ot) := by
      simp [consumptionResult, getAppConsumption, ha2, hstale2, hf1,
        fetchConsumption_result, happ, hb]
    have hresM : consumptionResult backend now
        (mapSet cache (cacheKey app1.appId ot) ⟨app1.appId, ot, info ot, now⟩)
        app2 ot = some (info ot) := by
      simp [consumptionResult, getAppConsumption, ha2, hfresh2, cachedIds, hg]
    rw [hresM, hres2]
  · have hg : mapGet
        (mapSet cache (cacheKey app1.appId ot) ⟨app1.appId, ot, info ot, now⟩)
        (cacheKey app2.appId ot) = mapGet cache (cacheKey app2.appId ot) := by
      rw [mapGet_mapSet]
      simp [hk]
    have hfr : cacheFresh now
        (mapSet cache (cacheKey app1.appId ot) ⟨app1.appId, ot, info ot, now⟩)
        (cacheKey app2.appId ot) = cacheFresh now cache (cacheKey app2.appId ot) := by
      simp [cacheFresh, hg]
    have hci : cachedIds
        (mapSet cache (cacheKey app1.appId ot) ⟨app1.appId, ot, info ot, now⟩)
        (cacheKey app2.appId ot) = cachedIds cache (cacheKey app2.appId ot) := by
      simp [cachedIds, hg]
    cases hfc : cacheFresh now cache (cacheKey app2.appId ot) with
    | true => simp [consumptionResult, getAppConsumption, ha2, hfr, hfc, hci]
    | false =>
      simp [consumptionResult, getAppConsumption, ha2, hfr, hfc,
        fetchConsumption_result]

/-! ## C4: single-ID collision check -/

theorem checkCollisionLoop_fst (backend : Backend) (now : Nat) (ot : Str)
    (id : Nat) (cur : WorkspaceApp) :
    ∀ (apps : List WorkspaceApp) (cache : CacheMap),
    (checkCollisionLoop backend now ot id cur apps cache).1 =
      (apps.filter (collides backend now cache ot id cur)).map collisionApp := by
  intro apps
  induction apps with
  | nil => intro cache; rfl
  | cons app rest ih =>
    intro cache
    cases h1 : (app.appId == cur.appId) with
    | true =>
      have hc : collides backend now cache ot id cur app = false := by
        simp [collides, h1]
      simp [checkCollisionLoop, h1, List.filter_cons, hc, ih cache]
    | false =>
      cases h2 : isIdInRanges id app.ranges with
      | false =>
        have hc : collides backend now cache ot id cur app = false := by
          simp [collides, h1, h2]
        simp [checkCollisionLoop, h1, h2, List.filter_cons, hc, ih cache]
      | true =>
        have hpres : ∀ a ∈ rest, collides backend now
            (getAppConsumption backend now cache app ot).cache ot id cur a =
            collides backend now cache ot id cur a := by
          intro a _
          unfold collides
          rw [consumptionResult_stable]
        have hcol : collides backend now cache ot id cur app =
            (match (getAppConsumption backend now cache app ot).result with
             | some ids => ids.contains id
             | none => false) := by
          simp [collides, consumptionResult, h1, h2]
        simp only [checkCollisionLoop, h1, h2, Bool.false_eq_true, if_false,
          if_true, ih ((getAppConsumption backend now cache app ot).cache),
          List.filter_congr hpres, List.filter_cons, hcol]
        cases hf : (getAppConsumption backend now cache app ot).result with
        | none => simp [hf]
        | some ids =>
          simp only [hf]
          by_cases hmem : id ∈ ids <;> simp [hmem]

/-- C4: against a workspace, `checkCollision` considers exactly the
apps other than the claimant (excluded by identifier); an app collides
precisely when the candidate ID lies in one of its declared ranges and
appears in its looked-up consumption for the kind; when at least one
app collides the result is a finding of severity error listing the
colliding apps and a message naming their count, and otherwise the
result is `null` (no finding). -/
theorem checkCollision_spec (backend : Backend) (now : Nat) (ot : Str)
    (id : Nat) (cur : WorkspaceApp) (ws : WorkspaceInfo) (cache : CacheMap) :
    (checkCollision backend now ot id cur (some ws) cache).1 =
      (if ws.apps.filter (collides backend now cache ot id cur) = [] then
        none
       else some ⟨ot, id,
         (ws.apps.filter (collides backend now cache ot id cur)).map
           collisionApp,
         .error,
         collisionMessage id
           (ws.apps.filter (collides backend now cache ot id cur)).length⟩) := by
  have hfst := checkCollisionLoop_fst backend now ot id cur ws.apps cache
  simp only [checkCollision, hfst]
  cases hl : ws.apps.filter (collides backend now cache ot id cur) with
  | nil => simp
  | cons x xs => simp

/-! ## C6: consumption-cache staleness window -/

/-- C6: for an authorized project with a cold cache for the key, the
first lookup (at time `t1`) issues a backend fetch, returns the fetched
consumption, and caches it stamped `t1`; a second lookup at `t2` with
`t2 - t1` strictly below the 5-minute timeout is served from that entry
with no fetch and the same value; a second lookup with `t2 - t1` at or
beyond the timeout issues a new backend fetch.  Expiry is decided at
lookup time from the entry's stored timestamp (there is no sweeper in
the model or the code). -/
theorem getAppConsumption_cache_window (backend : Backend)
    (info : Str → List Nat) (cache : CacheMap) (app : WorkspaceApp)
    (ot : Str) (t1 t2 : Nat)
    (hauth : app.isAuthorized = true) (hkey : jsTruthyStr app.authKey = true)
    (hb : backend app.appId = some info)
    (hcold : mapGet cache (cacheKey app.appId ot) = none) :
    (getAppConsumption backend t1 cache app ot).fetched = true ∧
    (getAppConsumption backend t1 cache app ot).result = some (info ot) ∧
    (t2 - t1 < cacheTimeout →
      (getAppConsumption backend t2
          (getAppConsumption backend t1 cache app ot).cache app ot).fetched =
        false ∧
      (getAppConsumption backend t2
          (getAppConsumption backend t1 cache app ot).cache app ot).result =
        some (info ot)) ∧
    (cacheTimeout ≤ t2 - t1 →
      (getAppConsumption backend t2
          (getAppConsumption backend t1 cache app ot).cache app ot).fetched =
        true) := by
  have hfresh1 : cacheFresh t1 cache (cacheKey app.appId ot) = false := by
    simp [cacheFresh, hcold]
  have hl1 : getAppConsumption backend t1 cache app ot =
      ⟨some (info ot),
       mapSet cache (cacheKey app.appId ot) ⟨app.appId, ot, info ot, t1⟩,
       true⟩ := by
    simp [getAppConsumption, hauth, hkey, hfresh1, fetchConsumption, hb]
  have hg2 : mapGet
      (mapSet cache (cacheKey app.appId ot) ⟨app.appId, ot, info ot, t1⟩)
      (cacheKey app.appId ot) = some ⟨app.appId, ot, info ot, t1⟩ := by
    rw [mapGet_mapSet]
    simp
  have hfresh2 : cacheFresh t2
      (mapSet cache (cacheKey app.appId ot) ⟨app.appId, ot, info ot, t1⟩)
      (cacheKey app.appId ot) = decide (t2 - t1 < cacheTimeout) := by
    simp [cacheFresh, hg2]
  refine ⟨by rw [hl1], by rw [hl1], fun hlt => ?_, fun hge => ?_⟩
  · rw [hl1]
    have hf : cacheFresh t2
        (mapSet cache (cacheKey app.appId ot) ⟨app.appId, ot, info ot, t1⟩)
        (cacheKey app.appId ot) = true := by
      rw [hfresh2]
      simpa using hlt
    constructor
    · simp [getAppConsumption, hauth, hkey, hf]
    · simp [getAppConsumption, hauth, hkey, hf, cachedIds, hg2]
  · rw [hl1]
    have hf : cacheFresh t2
        (mapSet cache (cacheKey app.appId ot) ⟨app.appId, ot, info ot, t1⟩)
        (cacheKey app.appId ot) = false := by
      rw [hfresh2]
      simpa using Nat.not_lt.mpr hge
    simp [getAppConsumption, hauth, hkey, hf, fetchConsumption, hb]

/-- C6 witness: a concrete authorized app, empty cache, backend serving
one consumption list; second lookup at 100ms is cache-served, at
exactly 300000ms it refetches. -/
theorem getAppConsumption_cache_window_witness :
    jsTruthyStr (some "k".toList) = true ∧
    (getAppConsumption (fun _ => some fun _ => [50000]) 0 []
        ⟨"p".toList, "a".toList, "n".toList, "v".toList, "pb".toList,
         true, true, some "k".toList, none⟩ "table".toList).fetched = true :=
  ⟨rfl,
   (getAppConsumption_cache_window (fun _ => some fun _ => [50000])
     (fun _ => [50000]) []
     ⟨"p".toList, "a".toList, "n".toList, "v".toList, "pb".toList,
      true, true, some "k".toList, none⟩
     "table".toList 0 100 rfl rfl rfl rfl).1⟩

/-! ## C5: range-overlap scan -/

theorem mem_findOverlappingRanges (rs1 rs2 : Option (List ALRange))
    (o : ALRange) :
    o ∈ findOverlappingRanges rs1 rs2 ↔
      ∃ r1 ∈ rs1.getD [], ∃ r2 ∈ rs2.getD [],
        max r1.«from» r2.«from» ≤ min r1.«to» r2.«to» ∧
        o = ⟨max r1.«from» r2.«from», min r1.«to» r2.«to»⟩ := by
  cases rs1 with
  | none => simp [findOverlappingRanges]
  | some r1s =>
    cases rs2 with
    | none => simp [findOverlappingRanges]
    | some r2s =>
      simp only [findOverlappingRanges, List.mem_flatMap, List.mem_filterMap,
        Option.ite_none_right_eq_some, Option.some.injEq, Option.getD_some]
      constructor
      · rintro ⟨r1, h1, r2, h2, hle, rfl⟩
        exact ⟨r1, h1, r2, h2, hle, rfl⟩
      · rintro ⟨r1, h1, r2, h2, hle, rfl⟩
        exact ⟨r1, h1, r2, h2, hle, rfl⟩

theorem mem_overlapInfos (a b : WorkspaceApp) (info : CollisionInfo) :
    info ∈ overlapInfos a b ↔
      ∃ r1 ∈ a.ranges.getD [], ∃ r2 ∈ b.ranges.getD [],
        max r1.«from» r2.«from» ≤ min r1.«to» r2.«to» ∧
        info = ⟨"table".toList, max r1.«from» r2.«from»,
                [collisionApp a, collisionApp b], .warning,
                rangeOverlapMessage
                  ⟨max r1.«from» r2.«from», min r1.«to» r2.«to»⟩
                  a.name b.name⟩ := by
  simp only [overlapInfos, List.mem_map]
  constructor
  · rintro ⟨o, ho, rfl⟩
    obtain ⟨r1, h1, r2, h2, hle, rfl⟩ := (mem_findOverlappingRanges _ _ _).mp ho
    exact ⟨r1, h1, r2, h2, hle, rfl⟩
  · rintro ⟨r1, h1, r2, h2, hle, rfl⟩
    exact ⟨⟨max r1.«from» r2.«from», min r1.«to» r2.«to»⟩,
      (mem_findOverlappingRanges _ _ _).mpr ⟨r1, h1, r2, h2, hle, rfl⟩, rfl⟩

theorem mem_checkRangeOverlapsLoop (info : CollisionInfo) :
    ∀ apps : List WorkspaceApp,
    info ∈ checkRangeOverlapsLoop apps ↔
      ∃ (i j : Nat) (a b : WorkspaceApp),
        i < j ∧ apps[i]? = some a ∧ apps[j]? = some b ∧
        info ∈ overlapInfos a b := by
  intro apps
  induction apps with
  | nil => simp [checkRangeOverlapsLoop]
  | cons app rest ih =>
    simp only [checkRangeOverlapsLoop, List.mem_append, List.mem_flatMap, ih]
    constructor
    · rintro (⟨b, hb, hin⟩ | ⟨i, j, a, b, hij, ha, hb, hin⟩)
      · obtain ⟨jb, hjb⟩ := List.mem_iff_getElem?.mp hb
        exact ⟨0, jb + 1, app, b, by omega, by simp,
          by simpa using hjb, hin⟩
      · exact ⟨i + 1, j + 1, a, b, by omega, by simpa using ha,
          by simpa using hb, hin⟩
    · rintro ⟨i, j, a, b, hij, ha, hb, hin⟩
      cases i with
      | zero =>
        cases j with
        | zero => omega
        | succ j2 =>
          left
          simp only [List.getElem?_cons_zero, Option.some.injEq] at ha
          simp only [List.getElem?_cons_succ] at hb
          subst ha
          exact ⟨b, List.mem_iff_getElem?.mpr ⟨j2, hb⟩, hin⟩
      | succ i2 =>
        cases j with
        | zero => omega
        | succ j2 =>
          right
          simp only [List.getElem?_cons_succ] at ha hb
          exact ⟨i2, j2, a, b, by omega, ha, hb, hin⟩

/-- C5: a finding of the range-overlap scan exists exactly for a pair
of distinct workspace positions `i < j` holding apps `a`, `b` and a
combination of one declared range from each passing the test
`max(from1, from2) ≤ min(to1, to2)`; the finding carries exactly the
overlapping sub-interval `[max(from1,from2), min(to1,to2)]` with
severity warning, independent of any consumption data; the claim's
overlapping and adjacent examples evaluate as stated. -/
theorem checkRangeOverlaps_spec (ws : WorkspaceInfo) (info : CollisionInfo) :
    (info ∈ checkRangeOverlaps (some ws) ↔
      ∃ (i j : Nat) (a b : WorkspaceApp),
        i < j ∧ ws.apps[i]? = some a ∧ ws.apps[j]? = some b ∧
        ∃ r1 ∈ a.ranges.getD [], ∃ r2 ∈ b.ranges.getD [],
          max r1.«from» r2.«from» ≤ min r1.«to» r2.«to» ∧
          info = ⟨"table".toList, max r1.«from» r2.«from»,
                  [collisionApp a, collisionApp b], .warning,
                  rangeOverlapMessage
                    ⟨max r1.«from» r2.«from», min r1.«to» r2.«to»⟩
                    a.name b.name⟩) ∧
    findOverlappingRanges (some [⟨50000, 50499⟩]) (some [⟨50400, 50999⟩]) =
      [⟨50400, 50499⟩] ∧
    findOverlappingRanges (some [⟨50000, 50499⟩]) (some [⟨50500, 50999⟩]) =
      [] := by
  refine ⟨?_, by decide, by decide⟩
  rw [checkRangeOverlaps, mem_checkRangeOverlapsLoop]
  simp only [mem_overlapInfos]

end ALObjId
